import Mathlib

/-!
Shallow embedding of `src/nv2apretty/subprocessors/fixed_function_shader.py`.

Python dictionaries are modelled as association lists where the most recent
binding is prepended, so a first-match lookup realises the dictionary's
last-write-wins semantics.  Python sets are modelled as lists observed only
through membership and emptiness.  The external registry
(`CLASS_TO_COMMAND_PROCESSOR_MAP[0x97]`, iterated in order) is a list of
descriptors; the external formatter table `_PROCESSORS` is a partial function
from opcode to a formatter.  32-bit machine integers are `Nat` with explicit
`< 2 ^ 32` bounds where the source's `struct` calls enforce them.  IEEE-754
floats never undergo arithmetic in the source; they are modelled by their
32-bit bit patterns, and their decimal rendering (Python `str(float)`) is an
explicit function parameter.
-/

namespace Nv2a

instance {ε α : Type} [DecidableEq ε] [DecidableEq α] : DecidableEq (Except ε α) := fun a b =>
  match a, b with
  | .ok x, .ok y =>
      if h : x = y then .isTrue (congrArg _ h) else .isFalse (fun hc => h (Except.ok.inj hc))
  | .error x, .error y =>
      if h : x = y then .isTrue (congrArg _ h) else .isFalse (fun hc => h (Except.error.inj hc))
  | .ok _, .error _ => .isFalse (fun hc => Except.noConfusion hc)
  | .error _, .ok _ => .isFalse (fun hc => Except.noConfusion hc)

/-- Descriptor of one registry entry.  `scalar` is a plain `int` opcode,
`stateArray` mirrors `StateArray(base, stride, num_elements)`, and
`structStateArray` mirrors
`StructStateArray(base, stride, num_elements, struct_stride, struct_count)`.
`unsupported` stands for a registry object of any other type; the `base`
field is the integer the object compares equal to in Python set-membership
tests. -/
inductive OpInfo where
  | scalar (op : Nat)
  | stateArray (base stride numElements : Nat)
  | structStateArray (base stride numElements structStride structCount : Nat)
  | unsupported (base : Nat)
deriving DecidableEq

/-- The `base_op` extraction of `_populate_tracked_ops` (lines 68-70):
`op_info.base` for the two array types, the object itself otherwise. -/
def OpInfo.baseOp : OpInfo → Nat
  | .scalar op => op
  | .stateArray base _ _ => base
  | .structStateArray base _ _ _ _ => base
  | .unsupported base => base

/-- Opcodes of one struct-array, mirroring the accumulating-`base` loop of
`_populate_tracked_ops` (lines 86-92): for each struct emit
`base + i * stride` for `i < numElements`, then advance `base` by
`structStride`. -/
def structArrayOps (stride numElements structStride : Nat) : Nat → Nat → List Nat
  | _, 0 => []
  | base, sc + 1 =>
      ((List.range numElements).map fun i => base + i * stride)
        ++ structArrayOps stride numElements structStride (base + structStride) sc

/-- Raw opcodes contributed to `_TRACKED_NV097_OPS` by one registry entry
(lines 77-92).  An `unsupported` entry falls off the end of the loop body and
contributes nothing. -/
def expandOp : OpInfo → List Nat
  | .scalar op => [op]
  | .stateArray base stride numElements =>
      (List.range numElements).map fun i => base + i * stride
  | .structStateArray base stride numElements structStride structCount =>
      structArrayOps stride numElements structStride base structCount
  | .unsupported _ => []

/-- The two process-wide structures: `_TRACKED_NV097_OPS` and
`_OP_TO_INFO_MAP`.  The map stores the most recent binding first. -/
structure Expansion where
  trackedOps : List Nat
  opToInfoMap : List (Nat × OpInfo)
deriving DecidableEq

/-- First-match association-list lookup (Python `dict.get`). -/
def mapLookup (m : List (Nat × OpInfo)) (k : Nat) : Option OpInfo :=
  match m with
  | [] => none
  | p :: rest => if p.1 = k then some p.2 else mapLookup rest k

/-- One iteration of the `for op_info in kelvin_ops` loop (lines 65-92):
skip when the base opcode is outside the interest set, otherwise record the
descriptor in the map and add its expansion to the tracked set. -/
def expandStep (interest : List Nat) (st : Expansion) (info : OpInfo) : Expansion :=
  if info.baseOp ∈ interest then
    { trackedOps := st.trackedOps ++ expandOp info
      opToInfoMap := (info.baseOp, info) :: st.opToInfoMap }
  else st

/-- The registry walk of `_populate_tracked_ops` (everything after the
guard). -/
def expandRegistry (interest : List Nat) (registry : List OpInfo) (st : Expansion) : Expansion :=
  registry.foldl (expandStep interest) st

/-- `_populate_tracked_ops` (lines 59-92): return immediately when the
tracked set is already non-empty, otherwise walk the registry. -/
def populateTrackedOps (interest : List Nat) (registry : List OpInfo) (st : Expansion) : Expansion :=
  if st.trackedOps = [] then expandRegistry interest registry st else st

/-- The frame state `self._state`: raw opcode to last-written parameter,
most recent binding first. -/
def FrameState := List (Nat × Nat)
deriving instance DecidableEq for FrameState

/-- Python `self._state.get(key)` with no default. -/
def stateGet (st : FrameState) (k : Nat) : Option Nat :=
  match st with
  | [] => none
  | p :: rest => if p.1 = k then some p.2 else stateGet rest k

/-- `FixedFunctionPipelineState.update` (lines 109-112). -/
def update (exp : Expansion) (st : FrameState) (nvOp nvParam : Nat) : FrameState :=
  if nvOp ∈ exp.trackedOps then (nvOp, nvParam) :: st else st

/-- Replay of a command stream: fold `update` over (opcode, parameter)
pairs. -/
def applyUpdates (exp : Expansion) (st : FrameState) (us : List (Nat × Nat)) : FrameState :=
  us.foldl (fun s u => update exp s u.1 u.2) st

/-- A reconstructed value: `int`, `list[int]`, or `list[list[int]]`. -/
inductive RawValue where
  | scalar (v : Nat)
  | array (vs : List Nat)
  | structArray (vss : List (List Nat))
deriving DecidableEq

/-- Python `self._state.get(key, default)` (lines 120, 125, 138). -/
def elemVal (st : FrameState) (defaultVal : Option Nat) (k : Nat) : Option Nat :=
  match stateGet st k with
  | some v => some v
  | none => defaultVal

/-- The element-gathering loop of the `StateArray` branch of
`get_raw_value` (lines 123-130): any `None` element aborts the whole
collection. -/
def collectVals (st : FrameState) (defaultVal : Option Nat) : List Nat → Option (List Nat)
  | [] => some []
  | k :: ks =>
      match elemVal st defaultVal k with
      | none => none
      | some v => (collectVals st defaultVal ks).map (v :: ·)

/-- The struct-gathering loop of the `StructStateArray` branch of
`get_raw_value` (lines 133-145), with the accumulating `base`. -/
def structCollect (st : FrameState) (defaultVal : Option Nat)
    (stride numElements structStride : Nat) : Nat → Nat → Option (List (List Nat))
  | _, 0 => some []
  | base, sc + 1 =>
      match collectVals st defaultVal ((List.range numElements).map fun i => base + i * stride) with
      | none => none
      | some vs =>
          (structCollect st defaultVal stride numElements structStride (base + structStride) sc).map
            (vs :: ·)

/-- `FixedFunctionPipelineState.get_raw_value` (lines 114-148).  A `None`
result is `Except.ok none`; the `ValueError` of line 148 is `Except.error`. -/
def get_raw_value (exp : Expansion) (st : FrameState) (opcode : Nat) (defaultVal : Option Nat) :
    Except String (Option RawValue) :=
  match mapLookup exp.opToInfoMap opcode with
  | none => .ok ((elemVal st defaultVal opcode).map .scalar)
  | some (.scalar _) => .ok ((elemVal st defaultVal opcode).map .scalar)
  | some (.stateArray base stride numElements) =>
      .ok ((collectVals st defaultVal
        ((List.range numElements).map fun i => base + i * stride)).map .array)
  | some (.structStateArray base stride numElements structStride structCount) =>
      .ok ((structCollect st defaultVal stride numElements structStride base structCount).map
        .structArray)
  | some (.unsupported _) => .error "Unsupported op_type"

/-! ### The `as_float` helper, at byte level

`as_float` packs its argument with `struct.pack("!I", ...)` (big-endian,
raising `struct.error` outside `[0, 2^32)`) and unpacks the four bytes with
`struct.unpack("!f", ...)`.  A float is modelled by its 32-bit pattern, so
unpacking bytes as a float means reading them (in the stated byte order)
into that pattern. -/

/-- Big-endian four-byte serialisation of a 32-bit integer
(`struct.pack("!I", n)`). -/
def packUInt32BE (n : Nat) : List Nat :=
  [n / 2 ^ 24 % 256, n / 2 ^ 16 % 256, n / 2 ^ 8 % 256, n % 256]

/-- Little-endian four-byte serialisation (`struct.pack("<I", n)`). -/
def packUInt32LE (n : Nat) : List Nat :=
  [n % 256, n / 2 ^ 8 % 256, n / 2 ^ 16 % 256, n / 2 ^ 24 % 256]

/-- Big-endian read of a byte string into a 32-bit pattern
(`struct.unpack("!I", bs)` and, under the bit-pattern model of floats,
`struct.unpack("!f", bs)`). -/
def unpackUInt32BE (bs : List Nat) : Nat :=
  bs.foldl (fun acc b => acc * 256 + b) 0

/-- Little-endian read of a byte string into a 32-bit pattern. -/
def unpackUInt32LE (bs : List Nat) : Nat :=
  unpackUInt32BE bs.reverse

/-- `as_float` (lines 98-100), under the bit-pattern model of floats: the
result is the bit pattern of the returned float.  `struct.pack("!I", ...)`
raises `struct.error` for arguments outside the 32-bit range. -/
def as_float (intVal : Nat) : Except String Nat :=
  if intVal < 2 ^ 32 then .ok (unpackUInt32BE (packUInt32BE intVal)) else .error "struct.error"

/-! ### The `_process` decoder -/

/-- A decoded value: `str`, `list[str]`, or `list[list[str]]`. -/
inductive ProcessedValue where
  | text (s : String)
  | texts (ss : List String)
  | structTexts (sss : List (List String))
deriving DecidableEq

/-- Python `f"0x{v:X}"`: uppercase hexadecimal with a `0x` prefix and no
padding. -/
def pyHexUpper (v : Nat) : String :=
  "0x" ++ ((Nat.toDigits 16 v).map Char.toUpper).asString

/-- One formatter dispatch (lines 162-164 etc.): the registered processor
for the opcode, or the hexadecimal fallback.  `procs` stands for the
external `_PROCESSORS` table restricted to class `0x97`, with the constant
`(0, 0x97)` arguments of every call site already applied. -/
def applyProc (procs : Nat → Option (Nat → String)) (op v : Nat) : String :=
  match procs op with
  | some f => f v
  | none => pyHexUpper v

/-- The per-struct decoding loop of `_process` (lines 181-191), with the
accumulating `base`. -/
def structProcess (procs : Nat → Option (Nat → String)) (stride structStride : Nat) :
    Nat → List (List Nat) → List (List String)
  | _, [] => []
  | base, vs :: rest =>
      (vs.enum.map fun p => applyProc procs (base + p.1 * stride) p.2)
        :: structProcess procs stride structStride (base + structStride) rest

/-- `FixedFunctionPipelineState._process` (lines 150-194).  The
`type confusion` arms cover raw-value shapes that `get_raw_value` can never
produce for the matching descriptor. -/
def process (procs : Nat → Option (Nat → String)) (exp : Expansion) (st : FrameState)
    (opcode : Nat) (defaultRawValue : Option Nat) (defaultStringValue : String) :
    Except String ProcessedValue := do
  let rawValue ← get_raw_value exp st opcode defaultRawValue
  match mapLookup exp.opToInfoMap opcode with
  | none =>
      match rawValue with
      | none => .ok (.text defaultStringValue)
      | some (.scalar v) => .ok (.text (applyProc procs opcode v))
      | some _ => .error "type confusion"
  | some (.scalar _) =>
      match rawValue with
      | none => .ok (.text defaultStringValue)
      | some (.scalar v) => .ok (.text (applyProc procs opcode v))
      | some _ => .error "type confusion"
  | some (.stateArray base stride numElements) =>
      match rawValue with
      | none => .ok (.texts (List.replicate numElements defaultStringValue))
      | some (.array vs) =>
          .ok (.texts (vs.enum.map fun p => applyProc procs (base + p.1 * stride) p.2))
      | some _ => .error "type confusion"
  | some (.structStateArray base stride numElements structStride _) =>
      match rawValue with
      | none => .ok (.texts (List.replicate numElements defaultStringValue))
      | some (.structArray vss) =>
          .ok (.structTexts (structProcess procs stride structStride base vss))
      | some _ => .error "type confusion"
  | some (.unsupported _) => .error "Unsupported op_type"

/-! ### Python value semantics used by `__str__` -/

/-- Python `str(bool)`. -/
def pyBool (b : Bool) : String :=
  if b then "True" else "False"

/-- Python `x != 0` for `x` a possible `get_raw_value` result: `None != 0`
and `list != 0` are `True`. -/
def pyNe0 : Option RawValue → Bool
  | none => true
  | some (.scalar v) => v != 0
  | some (.array _) => true
  | some (.structArray _) => true

/-- Python `bool(x)` for `x` a possible `get_raw_value` result. -/
def pyTruthy : Option RawValue → Bool
  | none => false
  | some (.scalar v) => v != 0
  | some (.array vs) => !vs.isEmpty
  | some (.structArray vss) => !vss.isEmpty

/-- Python `repr(s)` for a formatter string, used when a list of strings is
interpolated into an f-string.  Quote-escaping inside `s` is elided; no
tracked claim depends on it. -/
def pyReprStr (s : String) : String :=
  String.singleton (Char.ofNat 39) ++ s ++ String.singleton (Char.ofNat 39)

/-- Python `str(list[str])`. -/
def pyReprStrList (l : List String) : String :=
  "[" ++ String.intercalate ", " (l.map pyReprStr) ++ "]"

/-- Python `str(x)` for a `_process` result interpolated into an f-string. -/
def pvStr : ProcessedValue → String
  | .text s => s
  | .texts l => pyReprStrList l
  | .structTexts ll => "[" ++ String.intercalate ", " (ll.map pyReprStrList) ++ "]"

/-- Python truthiness of a `_process` result. -/
def pvTruthy : ProcessedValue → Bool
  | .text s => !(s == "")
  | .texts l => !l.isEmpty
  | .structTexts ll => !ll.isEmpty

/-- Python `len` of a `_process` result. -/
def pvLen : ProcessedValue → Nat
  | .text s => s.length
  | .texts l => l.length
  | .structTexts ll => ll.length

/-- Python `x[i]` on a `_process` result, followed by `str()` interpolation:
out-of-range indices raise `IndexError`; indexing a string yields a one-char
string; indexing a list of lists yields the inner list's `str()`. -/
def pvIdx : ProcessedValue → Nat → Except String String
  | .text s, i =>
      match s.toList.get? i with
      | some c => .ok (String.singleton c)
      | none => .error "IndexError"
  | .texts l, i =>
      match l.get? i with
      | some v => .ok v
      | none => .error "IndexError"
  | .structTexts ll, i =>
      match ll.get? i with
      | some inner => .ok (pyReprStrList inner)
      | none => .error "IndexError"

/-- Python `as_float(params[i])` (lines 223-234): subscripting an `int`
raises `TypeError`; subscripting past the end raises `IndexError`; passing
an inner list to `as_float` raises `TypeError`. -/
def rvFloatElem (rv : RawValue) (i : Nat) : Except String Nat :=
  match rv with
  | .scalar _ => .error "TypeError"
  | .array l =>
      match l.get? i with
      | some v => as_float v
      | none => .error "IndexError"
  | .structArray l => if i < l.length then .error "TypeError" else .error "IndexError"

/-- Python `[bool(item) for _, item in enumerate(x)]` (line 253): iterating
an `int` raises `TypeError`. -/
def rvEnumBool : RawValue → Except String (List Bool)
  | .scalar _ => .error "TypeError"
  | .array l => .ok (l.map fun v => v != 0)
  | .structArray ll => .ok (ll.map fun l => !l.isEmpty)

/-! ### The report builder `__str__` (lines 196-256)

The eighteen `NV097_*` opcode constants imported from the external
`extracted_data` module are parameters of the report. -/

structure Nv097Consts where
  lightingEnable : Nat
  twoSideLightEn : Nat
  colorMaterial : Nat
  lightControl : Nat
  lightEnableMask : Nat
  specularEnable : Nat
  fogEnable : Nat
  fogGenMode : Nat
  skinMode : Nat
  pointParamsEnable : Nat
  pointSize : Nat
  pointParams : Nat
  pointSmoothEnable : Nat
  texgenS : Nat
  texgenT : Nat
  texgenR : Nat
  texgenQ : Nat
  textureMatrixEnable : Nat

/-- Lines 199-205: the lighting header and its conditional sub-lines. -/
def lightingSection (c : Nv097Consts) (procs : Nat → Option (Nat → String)) (exp : Expansion)
    (st : FrameState) : Except String (List String) := do
  let le ← get_raw_value exp st c.lightingEnable (some 0)
  let lightingEnabled := pyNe0 le
  let head := "  Lighting: " ++ pyBool lightingEnabled
  if lightingEnabled then do
    let ts ← get_raw_value exp st c.twoSideLightEn (some 0)
    let cm ← process procs exp st c.colorMaterial none "<UNKNOWN>"
    let lc ← process procs exp st c.lightControl none "<UNKNOWN>"
    let lem ← process procs exp st c.lightEnableMask none "<UNKNOWN>"
    .ok [head,
      "\tTwo sided: " ++ pyBool (pyTruthy ts),
      "\tColor material: " ++ pvStr cm,
      "\tLight control: " ++ pvStr lc,
      "\tLight enable: " ++ pvStr lem]
  else
    .ok [head]

/-- Line 207. -/
def specularSection (c : Nv097Consts) (exp : Expansion) (st : FrameState) :
    Except String (List String) := do
  let se ← get_raw_value exp st c.specularEnable (some 0)
  .ok ["Specular enable: " ++ pyBool (pyTruthy se)]

/-- Lines 209-212. -/
def fogSection (c : Nv097Consts) (procs : Nat → Option (Nat → String)) (exp : Expansion)
    (st : FrameState) : Except String (List String) := do
  let fe ← get_raw_value exp st c.fogEnable (some 0)
  let fogEnabled := pyNe0 fe
  let head := "Fog enable: " ++ pyBool fogEnabled
  if fogEnabled then do
    let fgm ← process procs exp st c.fogGenMode none "<UNKNOWN>"
    .ok [head, "\tFog gen mode: " ++ pvStr fgm]
  else
    .ok [head]

/-- Line 214. -/
def skinSection (c : Nv097Consts) (procs : Nat → Option (Nat → String)) (exp : Expansion)
    (st : FrameState) : Except String (List String) := do
  let sm ← process procs exp st c.skinMode none "<UNKNOWN>"
  .ok ["Skinning mode: " ++ pvStr sm]

/-- Lines 216-235.  `floatFmt` renders the bit pattern returned by
`as_float` the way Python's `str(float)` would. -/
def pointParamsSection (c : Nv097Consts) (procs : Nat → Option (Nat → String))
    (floatFmt : Nat → String) (exp : Expansion) (st : FrameState) :
    Except String (List String) := do
  let ppe ← get_raw_value exp st c.pointParamsEnable (some 0)
  let enabled := pyNe0 ppe
  let head := "Point params enable: " ++ pyBool enabled
  if enabled then do
    let psize ← process procs exp st c.pointSize none "<UNKNOWN>"
    let sizeLine := "\tPoint size: " ++ pvStr psize
    let params ← get_raw_value exp st c.pointParams none
    match params with
    | none => .ok [head, sizeLine]
    | some pv =>
        if pyTruthy (some pv) then do
          let a ← rvFloatElem pv 0
          let b ← rvFloatElem pv 1
          let cc ← rvFloatElem pv 2
          let multLine := "\tSize multiplier: sqrt(1/(" ++ floatFmt a ++ " + " ++ floatFmt b
            ++ " * Deye + " ++ floatFmt cc ++ " * (Deye^2))"
          let sr ← rvFloatElem pv 3
          let sb ← rvFloatElem pv 6
          let mn ← rvFloatElem pv 7
          .ok [head, sizeLine, multLine,
            "\tSize range: " ++ floatFmt sr,
            "\tScale bias: " ++ floatFmt sb,
            "\tMinimum size: " ++ floatFmt mn]
        else
          .ok [head, sizeLine]
  else
    .ok [head]

/-- Lines 237-238. -/
def pointSmoothSection (c : Nv097Consts) (exp : Expansion) (st : FrameState) :
    Except String (List String) := do
  let ps ← get_raw_value exp st c.pointSmoothEnable (some 0)
  if pyTruthy ps then .ok ["Point smooth (point sprites) enabled"] else .ok []

/-- One texgen report line (line 247). -/
def texgenLine (sv tv rv qv : ProcessedValue) (i : Nat) : Except String String := do
  let s ← pvIdx sv i
  let t ← pvIdx tv i
  let r ← pvIdx rv i
  let q ← pvIdx qv i
  .ok ("\tS[" ++ toString i ++ "] " ++ s ++ ", T[" ++ toString i ++ "] " ++ t
    ++ " R[" ++ toString i ++ "]: " ++ r ++ " Q[" ++ toString i ++ "]: " ++ q)

/-- The consumption of the line generator by `ret.extend` (lines 246-249),
index by index. -/
def texgenLoop (sv tv rv qv : ProcessedValue) : List Nat → Except String (List String)
  | [] => .ok []
  | i :: is => do
      let line ← texgenLine sv tv rv qv i
      let rest ← texgenLoop sv tv rv qv is
      .ok (line :: rest)

/-- Lines 240-249: the texgen header, the four decodes, the truthiness gate
`all([s_vals, t_vals, r_vals, q_vals])`, and one line per index of
`range(len(s_vals))`. -/
def texgenSection (c : Nv097Consts) (procs : Nat → Option (Nat → String)) (exp : Expansion)
    (st : FrameState) : Except String (List String) := do
  let sv ← process procs exp st c.texgenS none "<UNKNOWN>"
  let tv ← process procs exp st c.texgenT none "<UNKNOWN>"
  let rv ← process procs exp st c.texgenR none "<UNKNOWN>"
  let qv ← process procs exp st c.texgenQ none "<UNKNOWN>"
  if pvTruthy sv && pvTruthy tv && pvTruthy rv && pvTruthy qv then do
    let lines ← texgenLoop sv tv rv qv (List.range (pvLen sv))
    .ok ("TexGen: " :: lines)
  else
    .ok ["TexGen: "]

/-- Lines 251-254. -/
def textureMatrixSection (c : Nv097Consts) (exp : Expansion) (st : FrameState) :
    Except String (List String) := do
  let tme ← get_raw_value exp st c.textureMatrixEnable none
  if pyTruthy tme then
    match tme with
    | none => .ok []
    | some rv => do
        let bs ← rvEnumBool rv
        .ok ["TextureMatrix: " ++ String.intercalate ", "
          (bs.enum.map fun p => "[" ++ toString p.1 ++ ": " ++ pyBool p.2 ++ "]")]
  else
    .ok []

/-- `FixedFunctionPipelineState.__str__` (lines 196-256): the sections in
report order, joined with the separator of line 256. -/
def report (c : Nv097Consts) (procs : Nat → Option (Nat → String)) (floatFmt : Nat → String)
    (exp : Expansion) (st : FrameState) : Except String String := do
  let l1 ← lightingSection c procs exp st
  let l2 ← specularSection c exp st
  let l3 ← fogSection c procs exp st
  let l4 ← skinSection c procs exp st
  let l5 ← pointParamsSection c procs floatFmt exp st
  let l6 ← pointSmoothSection c exp st
  let l7 ← texgenSection c procs exp st
  let l8 ← textureMatrixSection c exp st
  .ok (String.intercalate "\n  " (l1 ++ l2 ++ l3 ++ l4 ++ l5 ++ l6 ++ l7 ++ l8))

/-! ### A concrete environment used by witnesses and counterexamples -/

/-- Concrete, pairwise-distinct stand-ins for the eighteen `NV097_*`
constants, in declaration order of `Nv097Consts`. -/
def exConsts : Nv097Consts :=
  ⟨0x300, 0x304, 0x308, 0x30C, 0x310, 0x314, 0x318, 0x31C, 0x320, 0x324, 0x328, 0x400, 0x32C,
   0x500, 0x510, 0x520, 0x530, 0x600⟩

/-- The interest set `_BASE_TRACKED_NV097_OPS` for `exConsts`. -/
def exInterest : List Nat :=
  [0x300, 0x304, 0x308, 0x30C, 0x310, 0x314, 0x318, 0x31C, 0x320, 0x324, 0x328, 0x400, 0x32C,
   0x500, 0x510, 0x520, 0x530, 0x600]

/-- A concrete registry: scalars for the flags and modes, an 8-element array
for the point parameters, four equal-length texgen arrays, and a 2-element
texture-matrix-enable array. -/
def exRegistry : List OpInfo :=
  [.scalar 0x300, .scalar 0x304, .scalar 0x308, .scalar 0x30C, .scalar 0x310, .scalar 0x314,
   .scalar 0x318, .scalar 0x31C, .scalar 0x320, .scalar 0x324, .scalar 0x328,
   .stateArray 0x400 4 8, .scalar 0x32C,
   .stateArray 0x500 4 1, .stateArray 0x510 4 1, .stateArray 0x520 4 1, .stateArray 0x530 4 1,
   .stateArray 0x600 4 2]

/-- The expansion of `exRegistry`, as the module-level
`_populate_tracked_ops()` call produces it. -/
def exExpansion : Expansion := populateTrackedOps exInterest exRegistry ⟨[], []⟩

/-! ### Specification-side helpers for the theorems -/

/-- The text of texgen line `i` when the four decodes are string lists. -/
def texgenExpectedLine (ls lt lr lq : List String) (i : Nat) : String :=
  "\tS[" ++ toString i ++ "] " ++ ls.getD i "" ++ ", T[" ++ toString i ++ "] " ++ lt.getD i ""
    ++ " R[" ++ toString i ++ "]: " ++ lr.getD i "" ++ " Q[" ++ toString i ++ "]: " ++ lq.getD i ""

/-- Whether a descriptor lookup did not produce an unsupported-kind
descriptor. -/
def notUnsup : Option OpInfo → Bool
  | some (.unsupported _) => false
  | _ => true

/-- Well-formedness of the registry expansion with respect to the report's
opcodes, modelled from the spec: no tracked descriptor has an unsupported
kind, the point-parameters field is an Array with at least the 8 elements
the report reads, the four texgen fields are Arrays of one common length,
and the texture-matrix-enable field is an Array. -/
def WellFormed (c : Nv097Consts) (exp : Expansion) : Prop :=
  notUnsup (mapLookup exp.opToInfoMap c.lightingEnable) = true
  ∧ notUnsup (mapLookup exp.opToInfoMap c.twoSideLightEn) = true
  ∧ notUnsup (mapLookup exp.opToInfoMap c.colorMaterial) = true
  ∧ notUnsup (mapLookup exp.opToInfoMap c.lightControl) = true
  ∧ notUnsup (mapLookup exp.opToInfoMap c.lightEnableMask) = true
  ∧ notUnsup (mapLookup exp.opToInfoMap c.specularEnable) = true
  ∧ notUnsup (mapLookup exp.opToInfoMap c.fogEnable) = true
  ∧ notUnsup (mapLookup exp.opToInfoMap c.fogGenMode) = true
  ∧ notUnsup (mapLookup exp.opToInfoMap c.skinMode) = true
  ∧ notUnsup (mapLookup exp.opToInfoMap c.pointParamsEnable) = true
  ∧ notUnsup (mapLookup exp.opToInfoMap c.pointSize) = true
  ∧ notUnsup (mapLookup exp.opToInfoMap c.pointSmoothEnable) = true
  ∧ (∃ b s n, mapLookup exp.opToInfoMap c.pointParams = some (.stateArray b s n) ∧ 8 ≤ n)
  ∧ (∃ n, (∃ b s, mapLookup exp.opToInfoMap c.texgenS = some (.stateArray b s n))
      ∧ (∃ b s, mapLookup exp.opToInfoMap c.texgenT = some (.stateArray b s n))
      ∧ (∃ b s, mapLookup exp.opToInfoMap c.texgenR = some (.stateArray b s n))
      ∧ (∃ b s, mapLookup exp.opToInfoMap c.texgenQ = some (.stateArray b s n)))
  ∧ (∃ b s n, mapLookup exp.opToInfoMap c.textureMatrixEnable = some (.stateArray b s n))

/-- The tracked opcodes contributed by a registry fragment, ignoring the
accumulator. -/
def trackedOf (interest : List Nat) : List OpInfo → List Nat
  | [] => []
  | info :: rest =>
      (if info.baseOp ∈ interest then expandOp info else []) ++ trackedOf interest rest

/-! ### Basic lemmas -/

theorem okBind {ε α β : Type} (a : α) (f : α → Except ε β) :
    (Except.ok a >>= f : Except ε β) = f a := rfl

theorem errBind {ε α β : Type} (e : ε) (f : α → Except ε β) :
    ((Except.error e : Except ε α) >>= f) = .error e := rfl

theorem elemVal_eq_none_iff (st : FrameState) (d : Option Nat) (k : Nat) :
    elemVal st d k = none ↔ stateGet st k = none ∧ d = none := by
  unfold elemVal
  cases h : stateGet st k <;> simp

theorem elemVal_some_default (st : FrameState) (v k : Nat) :
    elemVal st (some v) k ≠ none := by
  unfold elemVal
  cases stateGet st k <;> simp

theorem elemVal_none_default (st : FrameState) (k : Nat) :
    elemVal st none k = stateGet st k := by
  unfold elemVal
  cases stateGet st k <;> simp

theorem collectVals_eq_none_iff (st : FrameState) (d : Option Nat) (ks : List Nat) :
    collectVals st d ks = none ↔ ∃ k ∈ ks, elemVal st d k = none := by
  induction ks with
  | nil => simp [collectVals]
  | cons k ks ih =>
      unfold collectVals
      cases h : elemVal st d k with
      | none => exact iff_of_true rfl ⟨k, List.mem_cons_self k ks, h⟩
      | some v =>
          rw [Option.map_eq_none', ih]
          constructor
          · rintro ⟨k1, hm, he⟩
            exact ⟨k1, List.mem_cons_of_mem k hm, he⟩
          · rintro ⟨k1, hm, he⟩
            rcases List.mem_cons.mp hm with rfl | hm1
            · exact absurd he (h ▸ fun hc => Option.noConfusion hc)
            · exact ⟨k1, hm1, he⟩

theorem collectVals_eq_some_iff (st : FrameState) (d : Option Nat) :
    ∀ (ks vs : List Nat),
      collectVals st d ks = some vs ↔
        List.Forall₂ (fun k v => elemVal st d k = some v) ks vs := by
  intro ks
  induction ks with
  | nil => intro vs; simp [collectVals, List.forall₂_nil_left_iff, eq_comm]
  | cons k ks ih =>
      intro vs
      unfold collectVals
      cases h : elemVal st d k with
      | none => simp [List.forall₂_cons_left_iff, h]
      | some v => simp [List.forall₂_cons_left_iff, h, Option.map_eq_some', ih, eq_comm]

theorem collectVals_length (st : FrameState) (d : Option Nat) (ks vs : List Nat)
    (h : collectVals st d ks = some vs) : vs.length = ks.length :=
  (((collectVals_eq_some_iff st d ks vs).mp h).length_eq).symm

theorem collectVals_range_get (st : FrameState) (d : Option Nat) (base stride n : Nat)
    (vs : List Nat)
    (h : collectVals st d ((List.range n).map fun i => base + i * stride) = some vs) :
    vs.length = n ∧ ∀ i, i < n → vs.get? i = elemVal st d (base + i * stride) := by
  have hf := (collectVals_eq_some_iff st d _ vs).mp h
  have hlen : vs.length = n := by simpa using hf.length_eq.symm
  refine ⟨hlen, fun i hi => ?_⟩
  have h1 : i < ((List.range n).map fun i => base + i * stride).length := by simpa using hi
  have h2 : i < vs.length := by omega
  have hg := hf.get h1 h2
  simp only [List.get_map] at hg
  rw [List.get?_eq_get h2, ← hg]
  congr 1
  simp [List.get_range]

theorem collectVals_some_of_default (st : FrameState) (v : Nat) (ks : List Nat) :
    collectVals st (some v) ks ≠ none := by
  rw [Ne, collectVals_eq_none_iff]
  rintro ⟨k, _, he⟩
  exact elemVal_some_default st v k he

theorem structCollect_eq_none_iff (st : FrameState) (d : Option Nat) (stride n sstride : Nat) :
    ∀ (sc base : Nat),
      structCollect st d stride n sstride base sc = none ↔
        ∃ j, j < sc ∧ ∃ i, i < n ∧ elemVal st d (base + j * sstride + i * stride) = none := by
  intro sc
  induction sc with
  | zero => intro base; simp [structCollect]
  | succ sc ih =>
      intro base
      unfold structCollect
      cases hc : collectVals st d ((List.range n).map fun i => base + i * stride) with
      | none =>
          rw [collectVals_eq_none_iff] at hc
          obtain ⟨k, hk, he⟩ := hc
          obtain ⟨i, hi, rfl⟩ := List.mem_map.mp hk
          simp only [List.mem_range] at hi
          refine iff_of_true rfl ⟨0, Nat.succ_pos sc, i, hi, ?_⟩
          simpa using he
      | some vs =>
          have hall : ∀ i, i < n → elemVal st d (base + i * stride) ≠ none := by
            intro i hi he
            have : collectVals st d ((List.range n).map fun i => base + i * stride) = none := by
              rw [collectVals_eq_none_iff]
              exact ⟨base + i * stride, List.mem_map.mpr ⟨i, List.mem_range.mpr hi, rfl⟩, he⟩
            rw [this] at hc
            exact Option.noConfusion hc
          rw [Option.map_eq_none', ih (base + sstride)]
          constructor
          · rintro ⟨j, hj, i, hi, he⟩
            refine ⟨j + 1, by omega, i, hi, ?_⟩
            rw [show base + (j + 1) * sstride + i * stride
              = base + sstride + j * sstride + i * stride by ring]
            exact he
          · rintro ⟨j, hj, i, hi, he⟩
            cases j with
            | zero =>
                exact absurd (by simpa using he) (hall i hi)
            | succ j =>
                refine ⟨j, by omega, i, hi, ?_⟩
                rw [show base + sstride + j * sstride + i * stride
                  = base + (j + 1) * sstride + i * stride by ring]
                exact he

theorem structCollect_eq_some (st : FrameState) (d : Option Nat) (stride n sstride : Nat) :
    ∀ (sc base : Nat) (vss : List (List Nat)),
      structCollect st d stride n sstride base sc = some vss →
        vss.length = sc ∧ ∀ j ws, vss.get? j = some ws →
          ws.length = n ∧ ∀ i, i < n → ws.get? i = elemVal st d (base + j * sstride + i * stride) := by
  intro sc
  induction sc with
  | zero =>
      intro base vss h
      simp only [structCollect] at h
      obtain rfl : vss = [] := by simpa [eq_comm] using h
      exact ⟨rfl, fun j ws hj => by simp at hj⟩
  | succ sc ih =>
      intro base vss h
      unfold structCollect at h
      cases hc : collectVals st d ((List.range n).map fun i => base + i * stride) with
      | none => rw [hc] at h; exact absurd h (by simp)
      | some vs =>
          rw [hc] at h
          obtain ⟨rest, hrest, rfl⟩ := Option.map_eq_some'.mp h
          obtain ⟨hlen, hget⟩ := ih (base + sstride) rest hrest
          refine ⟨by simp [hlen], fun j ws hj => ?_⟩
          cases j with
          | zero =>
              obtain rfl : vs = ws := by simpa using hj
              obtain ⟨hl, hg⟩ := collectVals_range_get st d base stride n vs hc
              refine ⟨hl, fun i hi => ?_⟩
              rw [hg i hi]
              congr 1
              ring
          | succ j =>
              have hj1 : rest.get? j = some ws := by simpa using hj
              obtain ⟨hl, hg⟩ := hget j ws hj1
              refine ⟨hl, fun i hi => ?_⟩
              rw [hg i hi]
              congr 1
              ring

/-! ### Claim theorems -/

/-- C1: for a base opcode mapped to an Array descriptor of `count` elements,
`get_raw_value` is all-or-nothing: it returns `None` exactly when some
element index below `count` has no stored value at `base + i * stride` and
the effective default is `None`; any non-`None` result is the sequence of
exactly `count` values ordered by ascending element index, element `i` read
from opcode `base + i * stride` (with the default filling absences); and
with a non-`None` default the result is never `None`. -/
theorem get_raw_value_stateArray_all_or_nothing
    (exp : Expansion) (st : FrameState) (opcode base stride count : Nat) (d : Option Nat)
    (h : mapLookup exp.opToInfoMap opcode = some (.stateArray base stride count)) :
    (get_raw_value exp st opcode d = .ok none ↔
      ∃ i, i < count ∧ stateGet st (base + i * stride) = none ∧ d = none)
    ∧ (∀ vs, get_raw_value exp st opcode d = .ok (some (.array vs)) →
        vs.length = count ∧ ∀ i, i < count → vs.get? i = elemVal st d (base + i * stride))
    ∧ (d ≠ none → get_raw_value exp st opcode d ≠ .ok none) := by
  have hg : get_raw_value exp st opcode d
      = .ok ((collectVals st d ((List.range count).map fun i => base + i * stride)).map .array) := by
    unfold get_raw_value
    rw [h]
  refine ⟨?_, ?_, ?_⟩
  · rw [hg]
    simp only [Except.ok.injEq, Option.map_eq_none', collectVals_eq_none_iff]
    constructor
    · rintro ⟨k, hk, he⟩
      obtain ⟨i, hi, rfl⟩ := List.mem_map.mp hk
      rw [elemVal_eq_none_iff] at he
      exact ⟨i, List.mem_range.mp hi, he.1, he.2⟩
    · rintro ⟨i, hi, hs, hd⟩
      exact ⟨base + i * stride, List.mem_map.mpr ⟨i, List.mem_range.mpr hi, rfl⟩,
        (elemVal_eq_none_iff st d _).mpr ⟨hs, hd⟩⟩
  · intro vs hvs
    rw [hg] at hvs
    have hvs1 := Except.ok.inj hvs
    cases hc : collectVals st d ((List.range count).map fun i => base + i * stride) with
    | none => rw [hc] at hvs1; exact absurd hvs1 (by simp)
    | some ws =>
        rw [hc] at hvs1
        simp only [Option.map_some'] at hvs1
        obtain rfl : ws = vs := RawValue.array.inj (Option.some.inj hvs1)
        exact collectVals_range_get st d base stride count ws hc
  · intro hd he
    rw [hg] at he
    have h1 := Except.ok.inj he
    rw [Option.map_eq_none'] at h1
    obtain ⟨v, rfl⟩ := Option.ne_none_iff_exists'.mp hd
    exact collectVals_some_of_default st v _ h1

theorem get_raw_value_stateArray_all_or_nothing_witness :
    get_raw_value ⟨[], [(10, OpInfo.stateArray 10 4 2)]⟩ [(10, 7)] 10 (some 3) ≠ .ok none :=
  (get_raw_value_stateArray_all_or_nothing ⟨[], [(10, .stateArray 10 4 2)]⟩ [(10, 7)]
    10 10 4 2 (some 3) rfl).2.2 (by simp)

/-- C2: for a base opcode mapped to a StructArray descriptor, a non-`None`
`get_raw_value` result is a sequence of sequences preserving struct order
(ascending `j` below `struct_count`) and element order within each struct
(ascending `i` below `count`), the value of struct `j`, element `i` read
from raw opcode `base + j * struct_stride + i * stride`; and the same
all-or-nothing policy applies: the result is `None` exactly when some
element anywhere resolves to `None`. -/
theorem get_raw_value_structArray_order
    (exp : Expansion) (st : FrameState) (opcode base stride count sstride scount : Nat)
    (d : Option Nat)
    (h : mapLookup exp.opToInfoMap opcode
      = some (.structStateArray base stride count sstride scount)) :
    (get_raw_value exp st opcode d = .ok none ↔
      ∃ j, j < scount ∧ ∃ i, i < count ∧ elemVal st d (base + j * sstride + i * stride) = none)
    ∧ (∀ vss, get_raw_value exp st opcode d = .ok (some (.structArray vss)) →
        vss.length = scount ∧ ∀ j ws, vss.get? j = some ws →
          ws.length = count ∧ ∀ i, i < count →
            ws.get? i = elemVal st d (base + j * sstride + i * stride)) := by
  have hg : get_raw_value exp st opcode d
      = .ok ((structCollect st d stride count sstride base scount).map .structArray) := by
    unfold get_raw_value
    rw [h]
  constructor
  · rw [hg]
    simp only [Except.ok.injEq, Option.map_eq_none']
    exact structCollect_eq_none_iff st d stride count sstride scount base
  · intro vss hv
    rw [hg] at hv
    have hv1 := Except.ok.inj hv
    cases hc : structCollect st d stride count sstride base scount with
    | none => rw [hc] at hv1; exact absurd hv1 (by simp)
    | some wss =>
        rw [hc] at hv1
        simp only [Option.map_some'] at hv1
        obtain rfl : wss = vss := RawValue.structArray.inj (Option.some.inj hv1)
        exact structCollect_eq_some st d stride count sstride scount base wss hc

theorem get_raw_value_structArray_order_witness :
    get_raw_value ⟨[], [(10, OpInfo.structStateArray 10 4 2 16 2)]⟩
        [(10, 1), (14, 2), (26, 3), (30, 4)] 10 none
      = .ok (some (.structArray [[1, 2], [3, 4]]))
    ∧ ([[1, 2], [3, 4]] : List (List Nat)).length = 2 :=
  ⟨by decide,
    ((get_raw_value_structArray_order ⟨[], [(10, .structStateArray 10 4 2 16 2)]⟩
      [(10, 1), (14, 2), (26, 3), (30, 4)] 10 10 4 2 16 2 none rfl).2
      [[1, 2], [3, 4]] (by decide)).1⟩

/-- C8: `as_float` is the bit-for-bit reinterpretation of its 32-bit
argument: with the matching big-endian pack and unpack orders the round
trip is the identity on bit patterns, the same holds when both sides use
little-endian order (so the choice of platform byte order is immaterial as
long as pack and unpack agree), and the encode-then-decode direction
(pack `!f`, unpack `!I`, here `packUInt32BE` then `unpackUInt32BE`)
likewise returns the original float bit pattern. -/
theorem as_float_bit_reinterpretation (n : Nat) (h : n < 2 ^ 32) :
    as_float n = .ok n
    ∧ unpackUInt32BE (packUInt32BE n) = n
    ∧ unpackUInt32LE (packUInt32LE n) = n := by
  have hbe : unpackUInt32BE (packUInt32BE n) = n := by
    simp only [unpackUInt32BE, packUInt32BE, List.foldl]
    omega
  have hle : unpackUInt32LE (packUInt32LE n) = n := by
    simp only [unpackUInt32LE, unpackUInt32BE, packUInt32LE, List.reverse, List.reverseAux,
      List.foldl]
    omega
  exact ⟨by unfold as_float; rw [if_pos h, hbe], hbe, hle⟩

theorem as_float_bit_reinterpretation_witness :
    as_float 0 = .ok 0
    ∧ as_float 0x80000000 = .ok 0x80000000
    ∧ as_float 0x7F800000 = .ok 0x7F800000
    ∧ as_float 0x7FC00001 = .ok 0x7FC00001 :=
  ⟨(as_float_bit_reinterpretation 0 (by norm_num)).1,
   (as_float_bit_reinterpretation 0x80000000 (by norm_num)).1,
   (as_float_bit_reinterpretation 0x7F800000 (by norm_num)).1,
   (as_float_bit_reinterpretation 0x7FC00001 (by norm_num)).1⟩

/-- C6: updating an opcode outside the tracked set leaves the frame state
unchanged — only tracked opcodes are ever inserted — and consequently a
subsequent report is unaffected by the untracked update. -/
theorem update_untracked_noop (c : Nv097Consts) (procs : Nat → Option (Nat → String))
    (floatFmt : Nat → String) (exp : Expansion) (st : FrameState) (op p : Nat)
    (h : op ∉ exp.trackedOps) :
    update exp st op p = st
    ∧ report c procs floatFmt exp (update exp st op p) = report c procs floatFmt exp st := by
  have h1 : update exp st op p = st := by
    unfold update
    rw [if_neg h]
  exact ⟨h1, by rw [h1]⟩

theorem update_untracked_noop_witness :
    update exExpansion [] 0x999 5 = [] :=
  (update_untracked_noop exConsts (fun _ => none) (fun _ => "") exExpansion [] 0x999 5
    (by decide)).1

/-- C9: `_populate_tracked_ops` is idempotent: whenever the tracked set is
already non-empty it returns its input state unchanged, so any number of
further calls leave the tracked set and the descriptor map exactly as they
were. -/
theorem populateTrackedOps_idempotent (interest : List Nat) (registry : List OpInfo)
    (st : Expansion) (h : st.trackedOps ≠ []) (n : Nat) :
    (fun s => populateTrackedOps interest registry s)^[n] st = st := by
  induction n with
  | zero => rfl
  | succ n ih =>
      rw [Function.iterate_succ_apply]
      have h1 : populateTrackedOps interest registry st = st := by
        unfold populateTrackedOps
        rw [if_neg h]
      rw [h1, ih]

theorem populateTrackedOps_idempotent_witness :
    (fun s => populateTrackedOps exInterest exRegistry s)^[3] exExpansion = exExpansion :=
  populateTrackedOps_idempotent exInterest exRegistry exExpansion (by decide) 3

/-! ### Unsupported-descriptor behaviour -/

theorem get_raw_value_ok_of_not_unsupported (exp : Expansion) (st : FrameState) (opcode : Nat)
    (d : Option Nat) (h : ∀ b, mapLookup exp.opToInfoMap opcode ≠ some (.unsupported b)) :
    ∃ r, get_raw_value exp st opcode d = .ok r := by
  unfold get_raw_value
  cases hl : mapLookup exp.opToInfoMap opcode with
  | none => exact ⟨_, rfl⟩
  | some info =>
      cases info with
      | scalar op => exact ⟨_, rfl⟩
      | stateArray b s n => exact ⟨_, rfl⟩
      | structStateArray b s n ss sc => exact ⟨_, rfl⟩
      | unsupported b => exact absurd hl (h b)

theorem get_raw_value_unsupported (exp : Expansion) (st : FrameState) (opcode : Nat)
    (d : Option Nat) (b : Nat) (h : mapLookup exp.opToInfoMap opcode = some (.unsupported b)) :
    get_raw_value exp st opcode d = .error "Unsupported op_type" := by
  unfold get_raw_value
  rw [h]

theorem process_unsupported (procs : Nat → Option (Nat → String)) (exp : Expansion)
    (st : FrameState) (opcode : Nat) (d : Option Nat) (ds : String) (b : Nat)
    (h : mapLookup exp.opToInfoMap opcode = some (.unsupported b)) :
    process procs exp st opcode d ds = .error "Unsupported op_type" := by
  unfold process
  rw [get_raw_value_unsupported exp st opcode d b h]
  rfl

/-! ### Expansion lemmas -/

theorem expandRegistry_append (interest : List Nat) (l1 l2 : List OpInfo) (st : Expansion) :
    expandRegistry interest (l1 ++ l2) st = expandRegistry interest l2 (expandRegistry interest l1 st) := by
  unfold expandRegistry
  exact List.foldl_append _ _ _ _

theorem trackedOf_append (interest : List Nat) (l1 l2 : List OpInfo) :
    trackedOf interest (l1 ++ l2) = trackedOf interest l1 ++ trackedOf interest l2 := by
  induction l1 with
  | nil => simp [trackedOf]
  | cons o l ih => simp [trackedOf, ih]

theorem expandRegistry_trackedOps (interest : List Nat) :
    ∀ (l : List OpInfo) (st : Expansion),
      (expandRegistry interest l st).trackedOps = st.trackedOps ++ trackedOf interest l := by
  intro l
  induction l with
  | nil => intro st; simp [expandRegistry, trackedOf]
  | cons o l ih =>
      intro st
      show (expandRegistry interest l (expandStep interest st o)).trackedOps = _
      rw [ih]
      have ht : trackedOf interest (o :: l)
          = (if o.baseOp ∈ interest then expandOp o else []) ++ trackedOf interest l := rfl
      rw [ht]
      unfold expandStep
      by_cases hb : o.baseOp ∈ interest
      · rw [if_pos hb, if_pos hb]
        simp
      · rw [if_neg hb, if_neg hb]
        simp

theorem mapLookup_expandRegistry_preserved (interest : List Nat) (b : Nat) (u : OpInfo) :
    ∀ (l : List OpInfo) (st : Expansion), (∀ o ∈ l, OpInfo.baseOp o ≠ b) →
      mapLookup st.opToInfoMap b = some u →
      mapLookup (expandRegistry interest l st).opToInfoMap b = some u := by
  intro l
  induction l with
  | nil => intro st _ h; exact h
  | cons o l ih =>
      intro st hne h
      show mapLookup (expandRegistry interest l (expandStep interest st o)).opToInfoMap b = some u
      apply ih _ (fun o1 ho1 => hne o1 (List.mem_cons_of_mem o ho1))
      unfold expandStep
      by_cases hb : o.baseOp ∈ interest
      · rw [if_pos hb]
        show mapLookup ((o.baseOp, o) :: st.opToInfoMap) b = some u
        unfold mapLookup
        rw [if_neg (hne o (List.mem_cons_self o l))]
        exact h
      · rw [if_neg hb]
        exact h

/-- C3 counterexample: expanding a registry whose only entry has an
unsupported descriptor kind completes normally — no error is raised during
expansion; the entry is even recorded in the descriptor map. -/
theorem populate_unsupported_no_raise :
    populateTrackedOps [5] [OpInfo.unsupported 5] ⟨[], []⟩
      = ⟨[], [(5, OpInfo.unsupported 5)]⟩ := by decide

/-- C3 (amended): a descriptor variant outside the three known kinds makes
`get_raw_value` — and `_process`, which calls it — fail with the
unsupported-descriptor error, which propagates to the caller; the error is
raised only at reconstruction (expansion silently skips such entries), and
any opcode whose lookup is not an unsupported descriptor never raises, so
missing data never raises. -/
theorem unsupported_raises_only_at_reconstruction (procs : Nat → Option (Nat → String))
    (exp : Expansion) (st : FrameState) (opcode : Nat) (d : Option Nat) (ds : String) :
    ((∃ b, mapLookup exp.opToInfoMap opcode = some (.unsupported b)) →
      get_raw_value exp st opcode d = .error "Unsupported op_type"
      ∧ process procs exp st opcode d ds = .error "Unsupported op_type")
    ∧ ((∀ b, mapLookup exp.opToInfoMap opcode ≠ some (.unsupported b)) →
      ∃ r, get_raw_value exp st opcode d = .ok r) := by
  constructor
  · rintro ⟨b, hb⟩
    exact ⟨get_raw_value_unsupported exp st opcode d b hb,
      process_unsupported procs exp st opcode d ds b hb⟩
  · exact get_raw_value_ok_of_not_unsupported exp st opcode d

theorem unsupported_raises_only_at_reconstruction_witness :
    get_raw_value ⟨[], [(5, OpInfo.unsupported 5)]⟩ [] 5 none = .error "Unsupported op_type"
    ∧ ∃ r, get_raw_value ⟨[], []⟩ [] 5 none = .ok r :=
  ⟨((unsupported_raises_only_at_reconstruction (fun _ => none) ⟨[], [(5, .unsupported 5)]⟩
      [] 5 none "").1 ⟨5, rfl⟩).1,
   (unsupported_raises_only_at_reconstruction (fun _ => none) ⟨[], []⟩ [] 5 none "").2
     (fun b h => Option.noConfusion h)⟩

/-- C10: a registry entry whose base opcode is in the interest set but
whose kind is unknown is recorded in the descriptor map by expansion (the
map insertion precedes the kind dispatch) while contributing nothing to the
tracked set, and the unsupported-kind error surfaces only later, when
`get_raw_value` is called on that base opcode. -/
theorem unsupported_recorded_in_map (interest : List Nat) (pre post : List OpInfo) (b : Nat)
    (hb : b ∈ interest) (hpost : ∀ o ∈ post, OpInfo.baseOp o ≠ b) :
    mapLookup (populateTrackedOps interest (pre ++ .unsupported b :: post) ⟨[], []⟩).opToInfoMap b
      = some (.unsupported b)
    ∧ (populateTrackedOps interest (pre ++ .unsupported b :: post) ⟨[], []⟩).trackedOps
      = (populateTrackedOps interest (pre ++ post) ⟨[], []⟩).trackedOps
    ∧ ∀ (st : FrameState) (d : Option Nat),
        get_raw_value (populateTrackedOps interest (pre ++ .unsupported b :: post) ⟨[], []⟩) st b d
          = .error "Unsupported op_type" := by
  have hpop : ∀ reg, populateTrackedOps interest reg (⟨[], []⟩ : Expansion)
      = expandRegistry interest reg ⟨[], []⟩ := fun reg => rfl
  have hmap : mapLookup
      (populateTrackedOps interest (pre ++ .unsupported b :: post) ⟨[], []⟩).opToInfoMap b
      = some (.unsupported b) := by
    rw [hpop, show pre ++ OpInfo.unsupported b :: post
      = (pre ++ [OpInfo.unsupported b]) ++ post by simp, expandRegistry_append]
    apply mapLookup_expandRegistry_preserved interest b _ post _ hpost
    rw [expandRegistry_append]
    have h1 : expandRegistry interest [OpInfo.unsupported b] (expandRegistry interest pre ⟨[], []⟩)
        = expandStep interest (expandRegistry interest pre ⟨[], []⟩) (.unsupported b) := rfl
    rw [h1]
    unfold expandStep
    rw [if_pos (by simpa [OpInfo.baseOp] using hb)]
    show mapLookup ((b, OpInfo.unsupported b) :: _) b = some (.unsupported b)
    unfold mapLookup
    rw [if_pos rfl]
  refine ⟨hmap, ?_, fun st d => get_raw_value_unsupported _ st b d b hmap⟩
  rw [hpop, hpop, expandRegistry_trackedOps, expandRegistry_trackedOps, trackedOf_append,
    trackedOf_append]
  have h2 : trackedOf interest (OpInfo.unsupported b :: post)
      = (if (OpInfo.unsupported b).baseOp ∈ interest then expandOp (.unsupported b) else [])
        ++ trackedOf interest post := rfl
  rw [h2]
  simp [expandOp]

theorem unsupported_recorded_in_map_witness :
    mapLookup (populateTrackedOps [5, 6] [OpInfo.scalar 6, OpInfo.unsupported 5, OpInfo.scalar 6]
        ⟨[], []⟩).opToInfoMap 5 = some (.unsupported 5) :=
  (unsupported_recorded_in_map [5, 6] [.scalar 6] [.scalar 6] 5 (by decide) (by decide)).1

/-- C5 (code-bug evidence): for a StructArray descriptor with
`struct_count = 3` and `count = 2` whose raw value is absent, `_process`
returns the flat sequence of `count` copies of the default text — not the
claimed `struct_count` nested sequences of `count` copies each. -/
theorem structArray_default_flat :
    process (fun _ => none) ⟨[], [(0x700, OpInfo.structStateArray 0x700 4 2 16 3)]⟩ [] 0x700
        none "<UNKNOWN>"
      = .ok (.texts ["<UNKNOWN>", "<UNKNOWN>"]) := by decide

/-! ### Decoder totality lemmas -/

theorem notUnsup_spec (o : Option OpInfo) (h : notUnsup o = true) :
    ∀ b, o ≠ some (.unsupported b) := by
  intro b hb
  rw [hb] at h
  simp [notUnsup] at h

theorem process_ok_of_not_unsupported (procs : Nat → Option (Nat → String)) (exp : Expansion)
    (st : FrameState) (opcode : Nat) (d : Option Nat) (ds : String)
    (h : notUnsup (mapLookup exp.opToInfoMap opcode) = true) :
    ∃ pv, process procs exp st opcode d ds = .ok pv := by
  unfold process
  cases hl : mapLookup exp.opToInfoMap opcode with
  | none =>
      have hg : get_raw_value exp st opcode d = .ok ((elemVal st d opcode).map .scalar) := by
        unfold get_raw_value
        rw [hl]
      rw [hg, okBind]
      cases he : elemVal st d opcode with
      | none => exact ⟨_, rfl⟩
      | some v => exact ⟨_, rfl⟩
  | some info =>
      cases info with
      | scalar op =>
          have hg : get_raw_value exp st opcode d = .ok ((elemVal st d opcode).map .scalar) := by
            unfold get_raw_value
            rw [hl]
          rw [hg, okBind]
          cases he : elemVal st d opcode with
          | none => exact ⟨_, rfl⟩
          | some v => exact ⟨_, rfl⟩
      | stateArray b s n =>
          have hg : get_raw_value exp st opcode d
              = .ok ((collectVals st d ((List.range n).map fun i => b + i * s)).map .array) := by
            unfold get_raw_value
            rw [hl]
          rw [hg, okBind]
          cases hc : collectVals st d ((List.range n).map fun i => b + i * s) with
          | none => exact ⟨_, rfl⟩
          | some vs => exact ⟨_, rfl⟩
      | structStateArray b s n ss sc =>
          have hg : get_raw_value exp st opcode d
              = .ok ((structCollect st d s n ss b sc).map .structArray) := by
            unfold get_raw_value
            rw [hl]
          rw [hg, okBind]
          cases hc : structCollect st d s n ss b sc with
          | none => exact ⟨_, rfl⟩
          | some vss => exact ⟨_, rfl⟩
      | unsupported b =>
          rw [hl] at h
          exact absurd h (by simp [notUnsup])

theorem process_stateArray_texts (procs : Nat → Option (Nat → String)) (exp : Expansion)
    (st : FrameState) (opcode : Nat) (d : Option Nat) (ds : String) (b s n : Nat)
    (h : mapLookup exp.opToInfoMap opcode = some (.stateArray b s n)) :
    ∃ l, process procs exp st opcode d ds = .ok (.texts l) ∧ l.length = n := by
  unfold process
  have hg : get_raw_value exp st opcode d
      = .ok ((collectVals st d ((List.range n).map fun i => b + i * s)).map .array) := by
    unfold get_raw_value
    rw [h]
  rw [hg, okBind, h]
  cases hc : collectVals st d ((List.range n).map fun i => b + i * s) with
  | none => exact ⟨_, rfl, by simp⟩
  | some vs =>
      refine ⟨_, rfl, ?_⟩
      simpa using (collectVals_range_get st d b s n vs hc).1

/-! ### Frame-state boundedness under replay -/

theorem stateGet_applyUpdates_bound (exp : Expansion) :
    ∀ (us : List (Nat × Nat)) (st0 : FrameState), (∀ u ∈ us, u.2 < 2 ^ 32) →
      (∀ k v, stateGet st0 k = some v → v < 2 ^ 32) →
      ∀ k v, stateGet (applyUpdates exp st0 us) k = some v → v < 2 ^ 32 := by
  intro us
  induction us with
  | nil => intro st0 _ h0 k v hv; exact h0 k v hv
  | cons u us ih =>
      intro st0 hus h0 k v hv
      have h1 : ∀ k1 v1, stateGet (update exp st0 u.1 u.2) k1 = some v1 → v1 < 2 ^ 32 := by
        intro k1 v1 hv1
        unfold update at hv1
        by_cases ht : u.1 ∈ exp.trackedOps
        · rw [if_pos ht] at hv1
          unfold stateGet at hv1
          by_cases hk : u.1 = k1
          · simp only [hk, if_pos rfl] at hv1
            obtain rfl : u.2 = v1 := Option.some.inj hv1
            exact hus u (List.mem_cons_self u us)
          · simp only [if_neg hk] at hv1
            exact h0 k1 v1 hv1
        · rw [if_neg ht] at hv1
          exact h0 k1 v1 hv1
      exact ih (update exp st0 u.1 u.2) (fun w hw => hus w (List.mem_cons_of_mem u hw)) h1 k v hv

/-! ### Texgen section lemmas -/

theorem pvIdx_texts (l : List String) (i : Nat) (h : i < l.length) :
    pvIdx (.texts l) i = .ok (l.getD i "") := by
  show (match l.get? i with
    | some v => Except.ok v
    | none => Except.error "IndexError") = Except.ok (l.getD i "")
  rw [List.get?_eq_get h, List.getD_eq_get l "" h]

theorem texgenLine_texts (ls lt lr lq : List String) (i : Nat)
    (h1 : i < ls.length) (h2 : i < lt.length) (h3 : i < lr.length) (h4 : i < lq.length) :
    texgenLine (.texts ls) (.texts lt) (.texts lr) (.texts lq) i
      = .ok (texgenExpectedLine ls lt lr lq i) := by
  unfold texgenLine
  rw [pvIdx_texts ls i h1, okBind, pvIdx_texts lt i h2, okBind, pvIdx_texts lr i h3, okBind,
    pvIdx_texts lq i h4, okBind]
  rfl

theorem texgenLoop_texts (ls lt lr lq : List String)
    (h2 : ls.length ≤ lt.length) (h3 : ls.length ≤ lr.length) (h4 : ls.length ≤ lq.length) :
    ∀ (is : List Nat), (∀ i ∈ is, i < ls.length) →
      texgenLoop (.texts ls) (.texts lt) (.texts lr) (.texts lq) is
        = .ok (is.map (texgenExpectedLine ls lt lr lq)) := by
  intro is
  induction is with
  | nil => intro _; rfl
  | cons i is ih =>
      intro hmem
      have hi := hmem i (List.mem_cons_self i is)
      unfold texgenLoop
      rw [texgenLine_texts ls lt lr lq i hi (by omega) (by omega) (by omega), okBind,
        ih (fun j hj => hmem j (List.mem_cons_of_mem i hj)), okBind]
      rfl

theorem pvTruthy_texts (l : List String) : pvTruthy (.texts l) = true ↔ l ≠ [] := by
  cases l <;> simp [pvTruthy]

/-- The behaviour of the texgen section when the four decodes are string
lists: the gate is Python truthiness of all four (non-emptiness), and the
emitted lines are indexed by the S sequence, the other three being at least
as long. -/
theorem texgenSection_texts_eq (c : Nv097Consts) (procs : Nat → Option (Nat → String))
    (exp : Expansion) (st : FrameState) (ls lt lr lq : List String)
    (hs : process procs exp st c.texgenS none "<UNKNOWN>" = .ok (.texts ls))
    (ht : process procs exp st c.texgenT none "<UNKNOWN>" = .ok (.texts lt))
    (hr : process procs exp st c.texgenR none "<UNKNOWN>" = .ok (.texts lr))
    (hq : process procs exp st c.texgenQ none "<UNKNOWN>" = .ok (.texts lq))
    (h2 : ls.length ≤ lt.length) (h3 : ls.length ≤ lr.length) (h4 : ls.length ≤ lq.length) :
    texgenSection c procs exp st
      = .ok ("TexGen: " ::
        (if ls = [] ∨ lt = [] ∨ lr = [] ∨ lq = [] then []
         else (List.range ls.length).map (texgenExpectedLine ls lt lr lq))) := by
  unfold texgenSection
  rw [hs, okBind, ht, okBind, hr, okBind, hq, okBind]
  by_cases he : ls = [] ∨ lt = [] ∨ lr = [] ∨ lq = []
  · have hg : (pvTruthy (.texts ls) && pvTruthy (.texts lt) && pvTruthy (.texts lr)
        && pvTruthy (.texts lq)) = false := by
      rcases he with h | h | h | h <;> simp [h, pvTruthy]
    rw [hg]
    simp [he]
  · push_neg at he
    obtain ⟨hne1, hne2, hne3, hne4⟩ := he
    have hg : (pvTruthy (.texts ls) && pvTruthy (.texts lt) && pvTruthy (.texts lr)
        && pvTruthy (.texts lq)) = true := by
      simp [Bool.and_eq_true, pvTruthy_texts, hne1, hne2, hne3, hne4]
    rw [hg]
    have hloop := texgenLoop_texts ls lt lr lq h2 h3 h4 (List.range (pvLen (.texts ls)))
      (fun i hi => by simpa [pvLen] using List.mem_range.mp hi)
    simp only [Bool.if_true_left]
    rw [show pvLen (.texts ls) = ls.length from rfl] at hloop ⊢
    rw [hloop, okBind]
    simp [hne1, hne2, hne3, hne4]

/-! ### Section totality lemmas -/

theorem lightingSection_ok (c : Nv097Consts) (procs : Nat → Option (Nat → String))
    (exp : Expansion) (st : FrameState)
    (h1 : notUnsup (mapLookup exp.opToInfoMap c.lightingEnable) = true)
    (h2 : notUnsup (mapLookup exp.opToInfoMap c.twoSideLightEn) = true)
    (h3 : notUnsup (mapLookup exp.opToInfoMap c.colorMaterial) = true)
    (h4 : notUnsup (mapLookup exp.opToInfoMap c.lightControl) = true)
    (h5 : notUnsup (mapLookup exp.opToInfoMap c.lightEnableMask) = true) :
    ∃ out, lightingSection c procs exp st = .ok out := by
  obtain ⟨r1, hr1⟩ := get_raw_value_ok_of_not_unsupported exp st c.lightingEnable (some 0)
    (notUnsup_spec _ h1)
  unfold lightingSection
  rw [hr1, okBind]
  by_cases hb : pyNe0 r1 = true
  · rw [if_pos hb]
    obtain ⟨r2, hr2⟩ := get_raw_value_ok_of_not_unsupported exp st c.twoSideLightEn (some 0)
      (notUnsup_spec _ h2)
    obtain ⟨p3, hp3⟩ := process_ok_of_not_unsupported procs exp st c.colorMaterial none
      "<UNKNOWN>" h3
    obtain ⟨p4, hp4⟩ := process_ok_of_not_unsupported procs exp st c.lightControl none
      "<UNKNOWN>" h4
    obtain ⟨p5, hp5⟩ := process_ok_of_not_unsupported procs exp st c.lightEnableMask none
      "<UNKNOWN>" h5
    rw [hr2, okBind, hp3, okBind, hp4, okBind, hp5, okBind]
    exact ⟨_, rfl⟩
  · rw [if_neg hb]
    exact ⟨_, rfl⟩

theorem specularSection_ok (c : Nv097Consts) (exp : Expansion) (st : FrameState)
    (h : notUnsup (mapLookup exp.opToInfoMap c.specularEnable) = true) :
    ∃ out, specularSection c exp st = .ok out := by
  obtain ⟨r, hr⟩ := get_raw_value_ok_of_not_unsupported exp st c.specularEnable (some 0)
    (notUnsup_spec _ h)
  unfold specularSection
  rw [hr, okBind]
  exact ⟨_, rfl⟩

theorem fogSection_ok (c : Nv097Consts) (procs : Nat → Option (Nat → String)) (exp : Expansion)
    (st : FrameState)
    (h1 : notUnsup (mapLookup exp.opToInfoMap c.fogEnable) = true)
    (h2 : notUnsup (mapLookup exp.opToInfoMap c.fogGenMode) = true) :
    ∃ out, fogSection c procs exp st = .ok out := by
  obtain ⟨r1, hr1⟩ := get_raw_value_ok_of_not_unsupported exp st c.fogEnable (some 0)
    (notUnsup_spec _ h1)
  unfold fogSection
  rw [hr1, okBind]
  by_cases hb : pyNe0 r1 = true
  · rw [if_pos hb]
    obtain ⟨p2, hp2⟩ := process_ok_of_not_unsupported procs exp st c.fogGenMode none
      "<UNKNOWN>" h2
    rw [hp2, okBind]
    exact ⟨_, rfl⟩
  · rw [if_neg hb]
    exact ⟨_, rfl⟩

theorem skinSection_ok (c : Nv097Consts) (procs : Nat → Option (Nat → String)) (exp : Expansion)
    (st : FrameState) (h : notUnsup (mapLookup exp.opToInfoMap c.skinMode) = true) :
    ∃ out, skinSection c procs exp st = .ok out := by
  obtain ⟨p, hp⟩ := process_ok_of_not_unsupported procs exp st c.skinMode none "<UNKNOWN>" h
  unfold skinSection
  rw [hp, okBind]
  exact ⟨_, rfl⟩

theorem pointSmoothSection_ok (c : Nv097Consts) (exp : Expansion) (st : FrameState)
    (h : notUnsup (mapLookup exp.opToInfoMap c.pointSmoothEnable) = true) :
    ∃ out, pointSmoothSection c exp st = .ok out := by
  obtain ⟨r, hr⟩ := get_raw_value_ok_of_not_unsupported exp st c.pointSmoothEnable (some 0)
    (notUnsup_spec _ h)
  unfold pointSmoothSection
  rw [hr, okBind]
  by_cases hb : pyTruthy r = true
  · rw [if_pos hb]
    exact ⟨_, rfl⟩
  · rw [if_neg hb]
    exact ⟨_, rfl⟩

theorem pointParamsSection_ok (c : Nv097Consts) (procs : Nat → Option (Nat → String))
    (floatFmt : Nat → String) (exp : Expansion) (st : FrameState)
    (h1 : notUnsup (mapLookup exp.opToInfoMap c.pointParamsEnable) = true)
    (h2 : notUnsup (mapLookup exp.opToInfoMap c.pointSize) = true)
    (b s n : Nat) (h3 : mapLookup exp.opToInfoMap c.pointParams = some (.stateArray b s n))
    (h8 : 8 ≤ n) (hst : ∀ k v, stateGet st k = some v → v < 2 ^ 32) :
    ∃ out, pointParamsSection c procs floatFmt exp st = .ok out := by
  obtain ⟨r1, hr1⟩ := get_raw_value_ok_of_not_unsupported exp st c.pointParamsEnable (some 0)
    (notUnsup_spec _ h1)
  unfold pointParamsSection
  rw [hr1, okBind]
  by_cases hb : pyNe0 r1 = true
  swap
  · rw [if_neg hb]
    exact ⟨_, rfl⟩
  rw [if_pos hb]
  obtain ⟨pv, hpv⟩ := process_ok_of_not_unsupported procs exp st c.pointSize none "<UNKNOWN>" h2
  rw [hpv, okBind]
  have hg : get_raw_value exp st c.pointParams none
      = .ok ((collectVals st none ((List.range n).map fun i => b + i * s)).map .array) := by
    unfold get_raw_value
    rw [h3]
  rw [hg, okBind]
  cases hc : collectVals st none ((List.range n).map fun i => b + i * s) with
  | none => exact ⟨_, rfl⟩
  | some vs =>
      simp only [Option.map_some']
      obtain ⟨hlen, hget⟩ := collectVals_range_get st none b s n vs hc
      have helem : ∀ i, i < n → ∃ v, vs.get? i = some v ∧ v < 2 ^ 32 := by
        intro i hi
        have hgi := hget i hi
        rw [elemVal_none_default] at hgi
        cases hv : stateGet st (b + i * s) with
        | none =>
            rw [hv] at hgi
            have hlt : i < vs.length := by omega
            rw [List.get?_eq_get hlt] at hgi
            exact absurd hgi (by simp)
        | some v =>
            rw [hv] at hgi
            exact ⟨v, hgi, hst _ v hv⟩
      have hflo : ∀ i, i < n → ∃ w, rvFloatElem (.array vs) i = .ok w := by
        intro i hi
        obtain ⟨v, hv, hbnd⟩ := helem i hi
        refine ⟨unpackUInt32BE (packUInt32BE v), ?_⟩
        show (match vs.get? i with
          | some v => as_float v
          | none => Except.error "IndexError") = _
        rw [hv]
        simp only [as_float, if_pos hbnd]
      have htr : pyTruthy (some (.array vs)) = true := by
        have : vs ≠ [] := by
          intro h0
          rw [h0] at hlen
          simp at hlen
          omega
        simpa [pyTruthy] using this
      rw [if_pos htr]
      obtain ⟨w0, hw0⟩ := hflo 0 (by omega)
      obtain ⟨w1, hw1⟩ := hflo 1 (by omega)
      obtain ⟨w2, hw2⟩ := hflo 2 (by omega)
      obtain ⟨w3, hw3⟩ := hflo 3 (by omega)
      obtain ⟨w6, hw6⟩ := hflo 6 (by omega)
      obtain ⟨w7, hw7⟩ := hflo 7 (by omega)
      rw [hw0, okBind, hw1, okBind, hw2, okBind, hw3, okBind, hw6, okBind, hw7, okBind]
      exact ⟨_, rfl⟩

theorem texgenSection_ok (c : Nv097Consts) (procs : Nat → Option (Nat → String))
    (exp : Expansion) (st : FrameState) (n : Nat)
    (hS : ∃ b s, mapLookup exp.opToInfoMap c.texgenS = some (.stateArray b s n))
    (hT : ∃ b s, mapLookup exp.opToInfoMap c.texgenT = some (.stateArray b s n))
    (hR : ∃ b s, mapLookup exp.opToInfoMap c.texgenR = some (.stateArray b s n))
    (hQ : ∃ b s, mapLookup exp.opToInfoMap c.texgenQ = some (.stateArray b s n)) :
    ∃ out, texgenSection c procs exp st = .ok out := by
  obtain ⟨bS, sS, hS⟩ := hS
  obtain ⟨bT, sT, hT⟩ := hT
  obtain ⟨bR, sR, hR⟩ := hR
  obtain ⟨bQ, sQ, hQ⟩ := hQ
  obtain ⟨ls, hls, hlens⟩ := process_stateArray_texts procs exp st c.texgenS none "<UNKNOWN>"
    bS sS n hS
  obtain ⟨lt, hlt, hlent⟩ := process_stateArray_texts procs exp st c.texgenT none "<UNKNOWN>"
    bT sT n hT
  obtain ⟨lr, hlr, hlenr⟩ := process_stateArray_texts procs exp st c.texgenR none "<UNKNOWN>"
    bR sR n hR
  obtain ⟨lq, hlq, hlenq⟩ := process_stateArray_texts procs exp st c.texgenQ none "<UNKNOWN>"
    bQ sQ n hQ
  exact ⟨_, texgenSection_texts_eq c procs exp st ls lt lr lq hls hlt hlr hlq
    (by omega) (by omega) (by omega)⟩

theorem textureMatrixSection_ok (c : Nv097Consts) (exp : Expansion) (st : FrameState)
    (b s n : Nat)
    (h : mapLookup exp.opToInfoMap c.textureMatrixEnable = some (.stateArray b s n)) :
    ∃ out, textureMatrixSection c exp st = .ok out := by
  unfold textureMatrixSection
  have hg : get_raw_value exp st c.textureMatrixEnable none
      = .ok ((collectVals st none ((List.range n).map fun i => b + i * s)).map .array) := by
    unfold get_raw_value
    rw [h]
  rw [hg, okBind]
  cases hc : collectVals st none ((List.range n).map fun i => b + i * s) with
  | none => exact ⟨_, rfl⟩
  | some vs =>
      simp only [Option.map_some']
      by_cases htr : pyTruthy (some (RawValue.array vs)) = true
      · rw [if_pos htr]
        exact ⟨_, rfl⟩
      · rw [if_neg htr]
        exact ⟨_, rfl⟩

/-- C7: for every finite sequence of `update` calls with arbitrary opcodes
and 32-bit parameters, applied to a well-formed registry expansion, the
report completes successfully and returns text. -/
theorem report_never_fails (c : Nv097Consts) (procs : Nat → Option (Nat → String))
    (floatFmt : Nat → String) (exp : Expansion) (updates : List (Nat × Nat))
    (hwf : WellFormed c exp) (hp : ∀ u ∈ updates, u.2 < 2 ^ 32) :
    ∃ s, report c procs floatFmt exp (applyUpdates exp [] updates) = .ok s := by
  obtain ⟨w1, w2, w3, w4, w5, w6, w7, w8, w9, w10, w11, w12,
    ⟨pb, ps, pn, hpp, hpn⟩, ⟨tn, hTS, hTT, hTR, hTQ⟩, ⟨mb, ms, mn, hTM⟩⟩ := hwf
  have hst : ∀ k v, stateGet (applyUpdates exp [] updates) k = some v → v < 2 ^ 32 := by
    apply stateGet_applyUpdates_bound exp updates [] hp
    intro k v hkv
    exact absurd hkv (by simp [stateGet])
  obtain ⟨o1, h1o⟩ := lightingSection_ok c procs exp (applyUpdates exp [] updates) w1 w2 w3 w4 w5
  obtain ⟨o2, h2o⟩ := specularSection_ok c exp (applyUpdates exp [] updates) w6
  obtain ⟨o3, h3o⟩ := fogSection_ok c procs exp (applyUpdates exp [] updates) w7 w8
  obtain ⟨o4, h4o⟩ := skinSection_ok c procs exp (applyUpdates exp [] updates) w9
  obtain ⟨o5, h5o⟩ := pointParamsSection_ok c procs floatFmt exp (applyUpdates exp [] updates)
    w10 w11 pb ps pn hpp hpn hst
  obtain ⟨o6, h6o⟩ := pointSmoothSection_ok c exp (applyUpdates exp [] updates) w12
  obtain ⟨o7, h7o⟩ := texgenSection_ok c procs exp (applyUpdates exp [] updates) tn hTS hTT hTR hTQ
  obtain ⟨o8, h8o⟩ := textureMatrixSection_ok c exp (applyUpdates exp [] updates) mb ms mn hTM
  unfold report
  rw [h1o, okBind, h2o, okBind, h3o, okBind, h4o, okBind, h5o, okBind, h6o, okBind, h7o, okBind,
    h8o, okBind]
  exact ⟨_, rfl⟩

theorem report_never_fails_witness :
    ∃ s, report exConsts (fun _ => none) (fun _ => "") exExpansion
        (applyUpdates exExpansion [] [(0x300, 1), (0x400, 7)]) = .ok s :=
  report_never_fails exConsts (fun _ => none) (fun _ => "") exExpansion [(0x300, 1), (0x400, 7)]
    ⟨by decide, by decide, by decide, by decide, by decide, by decide, by decide, by decide,
     by decide, by decide, by decide, by decide,
     ⟨0x400, 4, 8, by decide, by norm_num⟩,
     ⟨1, ⟨0x500, 4, by decide⟩, ⟨0x510, 4, by decide⟩, ⟨0x520, 4, by decide⟩,
      ⟨0x530, 4, by decide⟩⟩,
     ⟨0x600, 4, 2, by decide⟩⟩
    (by decide)

/-- C4 counterexample: with no updates at all and the texgen fields being
1-element Arrays, the texgen section of the report is not empty — the
decoder substitutes the default text for every element, all four decodes
are truthy, and one per-index line is emitted. -/
theorem texgen_nonempty_with_no_updates :
    texgenSection exConsts (fun _ => none) exExpansion []
      = .ok ["TexGen: ", "\tS[0] <UNKNOWN>, T[0] <UNKNOWN> R[0]: <UNKNOWN> Q[0]: <UNKNOWN>"] := by
  decide

/-- C4 (amended): per-index texgen lines are emitted if and only if all
four decoded S/T/R/Q results are non-empty (Python truthiness) — equal
length is not required; when emitted there is one line per index of the
decoded S sequence (here the other three are hypothesised at least as long,
otherwise the report raises IndexError), each combining the four decoded
strings; since decoding substitutes the default text, the no-update section
is non-empty whenever the texgen element counts are positive. -/
theorem texgenSection_truthy_gate (c : Nv097Consts) (procs : Nat → Option (Nat → String))
    (exp : Expansion) (st : FrameState) (ls lt lr lq : List String)
    (hs : process procs exp st c.texgenS none "<UNKNOWN>" = .ok (.texts ls))
    (ht : process procs exp st c.texgenT none "<UNKNOWN>" = .ok (.texts lt))
    (hr : process procs exp st c.texgenR none "<UNKNOWN>" = .ok (.texts lr))
    (hq : process procs exp st c.texgenQ none "<UNKNOWN>" = .ok (.texts lq))
    (h2 : ls.length ≤ lt.length) (h3 : ls.length ≤ lr.length) (h4 : ls.length ≤ lq.length) :
    texgenSection c procs exp st
      = .ok ("TexGen: " ::
        (if ls = [] ∨ lt = [] ∨ lr = [] ∨ lq = [] then []
         else (List.range ls.length).map (texgenExpectedLine ls lt lr lq))) :=
  texgenSection_texts_eq c procs exp st ls lt lr lq hs ht hr hq h2 h3 h4

theorem texgenSection_truthy_gate_witness :
    texgenSection exConsts (fun _ => none) exExpansion [(0x500, 2)]
      = .ok ("TexGen: " ::
        (if (["0x2"] : List String) = [] ∨ (["<UNKNOWN>"] : List String) = []
            ∨ (["<UNKNOWN>"] : List String) = [] ∨ (["<UNKNOWN>"] : List String) = [] then []
         else (List.range (["0x2"] : List String).length).map
            (texgenExpectedLine ["0x2"] ["<UNKNOWN>"] ["<UNKNOWN>"] ["<UNKNOWN>"]))) :=
  texgenSection_truthy_gate exConsts (fun _ => none) exExpansion [(0x500, 2)]
    ["0x2"] ["<UNKNOWN>"] ["<UNKNOWN>"] ["<UNKNOWN>"]
    (by decide) (by decide) (by decide) (by decide) (by decide) (by decide) (by decide)

/-! ### Sanity checks on concrete inputs -/

example :
    get_raw_value ⟨[10, 14], [(10, .stateArray 10 4 2)]⟩ [(10, 7), (14, 9)] 10 none
      = .ok (some (.array [7, 9])) := by decide

example :
    get_raw_value ⟨[10, 14], [(10, .stateArray 10 4 2)]⟩ [(10, 7)] 10 none
      = .ok none := by decide

example :
    get_raw_value ⟨[10, 14], [(10, .stateArray 10 4 2)]⟩ [(10, 7)] 10 (some 3)
      = .ok (some (.array [7, 3])) := by decide

example :
    get_raw_value ⟨[], [(10, .structStateArray 10 4 2 16 2)]⟩
        [(10, 1), (14, 2), (26, 3), (30, 4)] 10 none
      = .ok (some (.structArray [[1, 2], [3, 4]])) := by decide

example :
    get_raw_value ⟨[], [(10, .unsupported 10)]⟩ [] 10 none
      = .error "Unsupported op_type" := by decide

example : pyHexUpper 0 = "0x0" := by decide
example : pyHexUpper 48879 = "0xBEEF" := by decide

example :
    process (fun _ => none) ⟨[], [(10, .stateArray 10 4 2)]⟩ [(10, 255), (14, 0)] 10 none "<UNKNOWN>"
      = .ok (.texts ["0xFF", "0x0"]) := by decide

example :
    process (fun _ => none) ⟨[], [(10, .stateArray 10 4 2)]⟩ [] 10 none "<UNKNOWN>"
      = .ok (.texts ["<UNKNOWN>", "<UNKNOWN>"]) := by decide

example :
    process (fun _ => none) ⟨[], [(10, .structStateArray 10 4 2 16 3)]⟩ [] 10 none "<UNKNOWN>"
      = .ok (.texts ["<UNKNOWN>", "<UNKNOWN>"]) := by decide

end Nv2a
